import Mathlib

/-!
# Verification of the zjhttpc HTTP/1.1 client transport engine

A shallow embedding of the core of the `zjhttpc` Rust crate:
response construction and body reading (`src/response.rs`),
request serialization, the 100-continue handshake, response-head
parsing, address resolution, stream acquisition and the connection
pool (`src/client.rs`), and the request builder (`src/requestx.rs`).

Streams are modelled as lists of bytes (`List Nat`); a read of `k`
bytes returns `min k available` bytes, and returns `0` exactly when
the stream is exhausted.  Hash maps keyed by strings are modelled as
association lists with unique keys, which preserves the only
observable behaviour the code relies on (lookup, insert, in-place
value update).  Fallible Rust functions return `Except`/`Option`;
a Rust `unwrap` on an error value is modelled by an explicit `panic`
constructor of an outcome type.
-/

namespace Zjhttpc

/-! ## Integer parsing as Rust `str::parse::<uN>` does it

Rust's `FromStr` for unsigned integers accepts an optional leading
`+` sign followed by one or more ASCII digits, and fails on overflow
of the target width. -/

/-- Digits of a string interpreted in base 10 (caller checks they are digits). -/
def digitsToNat (l : List Char) : Nat :=
  l.foldl (fun a c => a * 10 + (c.toNat - 48)) 0

/-- Rust `str::parse::<uN>` where `bound` is `2^N`: optional `+`, then one
or more ASCII digits, failing on overflow. -/
def rustParseUInt (bound : Nat) (s : String) : Option Nat :=
  let cs := s.toList
  let ds := match cs with
            | '+' :: rest => rest
            | other => other
  if ds.isEmpty then none
  else if ds.all Char.isDigit then
    let v := digitsToNat ds
    if v < bound then some v else none
  else none

/-- Model of `str::parse::<u16>()`. -/
def rustParseU16 (s : String) : Option Nat := rustParseUInt 65536 s

/-- Model of `str::parse::<u64>()`. -/
def rustParseU64 (s : String) : Option Nat := rustParseUInt (2 ^ 64) s

/-! ## Header maps

`hashbrown::HashMap<String, Vec<String>>` modelled as an association
list with unique keys. -/

/-- The header map type. -/
abbrev HeaderMap := List (String × List String)

/-- Model of `headers.get(key)`. -/
def hmGet (m : HeaderMap) (k : String) : Option (List String) :=
  match m with
  | [] => none
  | (k', vs) :: rest => if k' = k then some vs else hmGet rest k

/-- The insert-or-push step of `Response::new_from_parse_result`:
`match headers.get_mut(&key) { Some(vec) => vec.push(value), None => insert(key, vec![value]) }`. -/
def hmPush (m : HeaderMap) (k v : String) : HeaderMap :=
  match m with
  | [] => [(k, [v])]
  | (k', vs) :: rest =>
      if k' = k then (k', vs ++ [v]) :: rest else (k', vs) :: hmPush rest k v

/-- Build the response header map from the parsed `(key, value)` pairs,
accumulating repeated keys, as the loop in `new_from_parse_result` does. -/
def buildHeaders (l : List (String × String)) : HeaderMap :=
  l.foldl (fun m kv => hmPush m kv.1 kv.2) []

/-! ## Response construction (`src/response.rs`) -/

/-- Model of `misc::HttpVersion`. -/
inductive HttpVersion where
  | V1_1
  | V1_0
deriving DecidableEq, Repr

/-- Model of `error::ZjhttpcError`, restricted to the variants response
construction can produce. -/
inductive ZjhttpcError where
  | InvalidHttpResponseVersion (s : String)
  | InvalidHttpResponseStatusCode (s : String)
deriving DecidableEq, Repr

/-- Model of `response::Response`.  The held stream is identified by a token;
its byte contents are passed separately to the body reader. -/
structure Response where
  addr : Nat
  is_tls : Bool
  body_readed : Bool
  http_version : HttpVersion
  status_code : Nat
  headers : HeaderMap
  body_stream : Option Nat
deriving DecidableEq, Repr

/-- Model of `Response::content_length`:
`headers.get("content-length").and_then(first).and_then(parse::<u64>)`. -/
def contentLength (r : Response) : Option Nat :=
  (hmGet r.headers "content-length").bind (fun vs => vs.head?) |>.bind rustParseU64

/-- Model of `Response::new_from_parse_result`.  The `headers_vec` argument is the
already-lowercased pair list produced by `read_headers_to_resp`. -/
def newFromParseResult (httpVersion statusCode : String)
    (headersVec : List (String × String)) (streamId : Nat) (isTls : Bool)
    (addr : Nat) : Except ZjhttpcError Response :=
  match (match httpVersion with
         | "1.1" => Except.ok HttpVersion.V1_1
         | "1.0" => Except.ok HttpVersion.V1_0
         | other => Except.error (ZjhttpcError.InvalidHttpResponseVersion other)) with
  | Except.error e => Except.error e
  | Except.ok ver =>
    match rustParseU16 statusCode with
    | none => Except.error (ZjhttpcError.InvalidHttpResponseStatusCode statusCode)
    | some code =>
      let headers := buildHeaders headersVec
      let resp : Response :=
        { addr := addr, is_tls := isTls, body_readed := false,
          http_version := ver, status_code := code, headers := headers,
          body_stream := some streamId }
      let resp := if contentLength resp = some 0 then { resp with body_readed := true } else resp
      Except.ok resp

/-! ## Body reading (`Response::body_string`) -/

/-- The read loop of `body_string`, structured on a fuel argument so
that it is structurally recursive: each iteration consumes at least
one byte, so fuel `remaining` (supplied by `readLoop`) always
suffices and the fuel-exhaustion branch is unreachable. -/
def readLoopF : Nat → Nat → List Nat → List Nat × List Nat
  | _, 0, s => ([], s)
  | 0, _ + 1, s => ([], s)
  | fuel + 1, remaining + 1, s =>
      let chunk := s.take (min 1024 (remaining + 1))
      if chunk.length = 0 then ([], s)
      else
        let rest := readLoopF fuel (remaining + 1 - chunk.length) (s.drop chunk.length)
        (chunk ++ rest.1, rest.2)

/-- The read loop of `body_string`: starting from `remaining` bytes still
owed and a 1024-byte buffer, read `min 1024 remaining` bytes per
iteration; a zero-byte read (stream exhausted) breaks out.  Returns the
collected bytes and the rest of the stream. -/
def readLoop (remaining : Nat) (s : List Nat) : List Nat × List Nat :=
  readLoopF remaining remaining s

/-- Model of `Response::body_string`.  `decode` stands for `String::from_utf8`
(an arbitrary fallible text decoding); the stream contents travel
alongside the response.  Returns the updated response, the rest of the
stream, and the result. -/
def bodyString (decode : List Nat → Except String String) (r : Response)
    (s : List Nat) : Response × List Nat × Except String String :=
  if r.body_readed then (r, s, Except.error "response body has been read")
  else
    match contentLength r with
    | some len =>
        if len = 0 then (r, s, Except.ok "")
        else
          match r.body_stream with
          | none => (r, s, Except.error "impossible, body stream is none")
          | some _ =>
              let (v, s') := readLoop len s
              ({ r with body_readed := true }, s', decode v)
    | none => (r, s, Except.error "chunk download is not supported yet")

/-- A concrete decoder for witnesses: succeeds on ASCII bytes. -/
def asciiDecode (l : List Nat) : Except String String :=
  if l.all (· < 128) then Except.ok (String.mk (l.map Char.ofNat))
  else Except.error "invalid utf-8"

/-! ## The connection pool (`src/client.rs`)

`TCP_POOL`/`TLS_POOL` are `DashMap<SocketAddr, Vec<BoxedStream>>`;
socket addresses are abstract tokens (`Nat`), streams are their
identifying tokens.  A `DashMap` is modelled as an association list
with unique keys. -/

/-- A pool: per-address buckets of idle stream tokens. -/
abbrev PoolMap := List (Nat × List Nat)

/-- Model of `POOL.get(&addr)` (`get_mut` reads the same entry). -/
def poolGet (p : PoolMap) (a : Nat) : Option (List Nat) :=
  match p with
  | [] => none
  | (a', b) :: rest => if a' = a then some b else poolGet rest a

/-- Replace the bucket stored under an existing address key. -/
def poolSet (p : PoolMap) (a : Nat) (b : List Nat) : PoolMap :=
  match p with
  | [] => []
  | (a', b') :: rest => if a' = a then (a, b) :: rest else (a', b') :: poolSet rest a b

/-- Model of `POOL.insert(addr, vec![stream])` (only reached when the key is absent). -/
def poolInsert (p : PoolMap) (a : Nat) (b : List Nat) : PoolMap :=
  p ++ [(a, b)]

/-- Size of the bucket for an address (0 when the bucket is absent). -/
def bucketSize (p : PoolMap) (a : Nat) : Nat :=
  ((poolGet p a).getD []).length

/-- Model of `return_stream_to_pool`: the disposal-time pool-return decision.
Takes the response (mutated: the stream is `take`n out when pooled or
dropped) and both pools; returns the updated response and pools.
A stream that is not pushed is simply dropped (closed). -/
def returnStreamToPool (r : Response) (tcp tls : PoolMap) :
    Response × PoolMap × PoolMap :=
  if !r.body_readed then (r, tcp, tls)
  else
    match r.body_stream with
    | none => (r, tcp, tls)
    | some sid =>
        let r' := { r with body_stream := none }
        if r.is_tls then
          match poolGet tls r.addr with
          | some bucket =>
              if bucket.length ≤ 30 then
                (r', tcp, poolSet tls r.addr (bucket ++ [sid]))
              else (r', tcp, tls)
          | none => (r', tcp, poolInsert tls r.addr [sid])
        else
          match poolGet tcp r.addr with
          | some bucket =>
              if bucket.length ≤ 30 then
                (r', poolSet tcp r.addr (bucket ++ [sid]), tls)
              else (r', tcp, tls)
          | none => (r', poolInsert tcp r.addr [sid], tls)

/-! ## Address resolution (`resolve_1st_ip`) -/

/-- Model of `resolve_1st_ip`: `url.socket_addrs()` yields `addrs : Vec<SocketAddr>`;
the function does `addrs.pop().ok_or(anyhow!("no result in DNS resolve"))`.
`Vec::pop` removes and returns the **last** element. -/
def resolve1stIp (addrs : List Nat) : Except String Nat :=
  match addrs.getLast? with
  | none => Except.error "no result in DNS resolve"
  | some a => Except.ok a

/-! ## Stream acquisition (`pick_or_connect_stream`, `"http"` arm)

The `"http"` arm pops a pooled stream, liveness-probes it, and on a
miss or a dead stream connects afresh — with
`TcpStream::connect(&addr).await.dot().unwrap()`: a connect failure
is `unwrap`ped, i.e. a panic, not an `Err` return. -/

/-- Outcome of the plain-scheme acquisition: a usable stream, or the
panic produced by `unwrap` on a failed connect. -/
inductive AcquireOutcome where
  | ok (sid : Nat)
  | panicked
deriving DecidableEq, Repr

/-- The `"http"` arm of `pick_or_connect_stream`.  `bucket` is the pool
entry for `addr` (`none` when absent), `alive` is the liveness probe
(`!is_stream_closed`), `connectResult` the result of
`TcpStream::connect`.  Returns the outcome and the updated bucket. -/
def pickOrConnectHttp (bucket : Option (List Nat)) (alive : Nat → Bool)
    (connectResult : Except String Nat) :
    AcquireOutcome × Option (List Nat) :=
  let popped : Option (Option Nat) × Option (List Nat) :=
    match bucket with
    | none => (none, none)
    | some b =>
        match b.getLast? with
        | none => (some none, some b)
        | some s => (some (some s), some (b.dropLast))
  match popped with
  | (some (some s), bucket') =>
      if alive s then (AcquireOutcome.ok s, bucket')
      else
        match connectResult with
        | Except.ok sid => (AcquireOutcome.ok sid, bucket')
        | Except.error _ => (AcquireOutcome.panicked, bucket')
  | (_, bucket') =>
      match connectResult with
      | Except.ok sid => (AcquireOutcome.ok sid, bucket')
      | Except.error _ => (AcquireOutcome.panicked, bucket')

/-! ## The request builder (`src/requestx.rs`) -/

/-- Model of `misc::Body`, restricted to the variants the writer serializes.
Stream bodies carry their byte contents. -/
inductive Body where
  | None
  | Str (s : String)
  | Stream (bytes : List Nat)
deriving DecidableEq, Repr

/-- Model of `requestx::Request`, the fields the writer consumes.  The URL is
pre-split into path and optional query (`url.path()` / `url.query()`). -/
structure Request where
  method : String
  path : String
  query : Option String
  headers : HeaderMap
  expect_continue : Bool
  basic_auth : Option (String × String)
  content_length : Nat
  body : Body
deriving DecidableEq, Repr

/-- Model of `Request::put_expect_continue`: note the body is
`self.expect_continue = true` — the argument is unused. -/
def putExpectContinue (r : Request) (expect : Bool) : Request :=
  { r with expect_continue := true }

/-! ## Base64 (`base64_simd::STANDARD.encode_to_string`) -/

/-- The standard base64 alphabet. -/
def base64Alphabet : List Char :=
  "ABCDEFGHIJKLMNOPQRSTUVWXYZabcdefghijklmnopqrstuvwxyz0123456789+/".toList

/-- The alphabet character for a 6-bit value. -/
def base64Char (n : Nat) : Char := base64Alphabet.getD n 'A'

/-- Standard base64 with padding over a byte list. -/
def base64EncodeBytes : List Nat → List Char
  | [] => []
  | [a] =>
      [base64Char (a / 4), base64Char (a % 4 * 16), '=', '=']
  | [a, b] =>
      [base64Char (a / 4), base64Char (a % 4 * 16 + b / 16),
       base64Char (b % 16 * 4), '=']
  | a :: b :: c :: rest =>
      base64Char (a / 4) :: base64Char (a % 4 * 16 + b / 16) ::
      base64Char (b % 16 * 4 + c / 64) :: base64Char (c % 64) ::
      base64EncodeBytes rest

/-- The UTF-8 bytes of a string. -/
def strBytes (s : String) : List Nat :=
  (s.data.flatMap String.utf8EncodeChar).map (fun b => b.toNat)

/-- Model of `base64_simd::STANDARD.encode_to_string` on a string's UTF-8 bytes. -/
def base64Encode (s : String) : String :=
  String.mk (base64EncodeBytes (strBytes s))

/-! ## The request writer (`send_header`)

The stream's write half is a buffer: `write_all` appends to the
pending buffer, `flush` moves pending bytes onto the wire.  The read
half (used only for the 100-continue check) is the string of bytes
the peer has made available; a single `read` into a 1024-byte buffer
returns up to 1024 of them. -/

/-- The write half of a stream. -/
structure WireState where
  sent : String
  pending : String
deriving DecidableEq, Repr

/-- Model of `stream.write_all(bytes)`. -/
def writeAll (st : WireState) (s : String) : WireState :=
  { st with pending := st.pending ++ s }

/-- Model of `stream.flush()`. -/
def flushWire (st : WireState) : WireState :=
  { sent := st.sent ++ st.pending, pending := "" }

/-- The header loop of `send_header`: for each `(key, values)` pair,
write `key`, `": "`, `values.first().unwrap()`, `"\r\n"`.  An empty
value list makes the `unwrap` panic, modelled as `none`. -/
def writeHeaderLines : HeaderMap → WireState → Option WireState
  | [], st => some st
  | (k, vs) :: rest, st =>
      match vs.head? with
      | none => none
      | some v =>
          writeHeaderLines rest
            (writeAll (writeAll (writeAll (writeAll st k) ": ") v) "\r\n")

/-- The post-flush 100-continue check of `send_header`: a single read
into a 1024-byte buffer; zero bytes is a hard error, anything but the
exact literal is a hard error. -/
def checkContinue (avail : String) : Except String Unit :=
  let resp := String.mk (avail.data.take 1024)
  if resp.data.length = 0 then
    Except.error "stream closed before read the 100 continue response"
  else if resp ≠ "HTTP/1.1 100 Continue\r\n\r\n" then
    Except.error ("received non-100-continue resp=" ++ resp)
  else Except.ok ()

/-- Model of `send_header`: the exact `write_all` sequence of the source,
followed by a flush, followed (when `expect_continue`) by the
100-continue check.  `none` models the `unwrap` panic on an empty
header value list. -/
def sendHeader (req : Request) (st : WireState) (avail : String) :
    Option (WireState × Except String Unit) :=
  let st := writeAll st req.method
  let st := writeAll st " "
  let st := writeAll st req.path
  let st := match req.query with
            | some q => writeAll (writeAll st "?") q
            | none => st
  let st := writeAll st " "
  let st := writeAll st "HTTP/1.1\r\n"
  match writeHeaderLines req.headers st with
  | none => none
  | some st =>
      let st := writeAll st "Content-Length: "
      let st := writeAll st (toString req.content_length)
      let st := writeAll st "\r\n"
      let st := match req.basic_auth with
                | some (u, p) =>
                    writeAll st ("Authorization: Basic " ++ base64Encode (u ++ ":" ++ p) ++ "\r\n")
                | none => st
      let st := if req.expect_continue then writeAll st "Expect: 100-continue\r\n" else st
      let st := writeAll st "Connection: keep-alive\r\n"
      let st := writeAll st "\r\n"
      let st := flushWire st
      let result := if req.expect_continue then checkContinue avail else Except.ok ()
      some (st, result)

/-! ## The request head per the specification's words

A second, spec-side definition of the serialized head, used to state
the refinement claim about `send_header`. -/

/-- Header lines per the spec: one `key: value\r\n` line per stored
key, emitting only the first stored value. -/
def specHeaderLines : HeaderMap → String
  | [] => ""
  | (k, vs) :: rest => k ++ ": " ++ vs.headD "" ++ "\r\n" ++ specHeaderLines rest

/-- The request head as the spec describes it: request line, header
lines, unconditional `Content-Length`, optional basic auth, optional
`Expect`, `Connection: keep-alive`, blank line. -/
def specRequestHead (req : Request) : String :=
  req.method ++ " " ++ req.path ++
    (match req.query with | some q => "?" ++ q | none => "") ++
    " HTTP/1.1\r\n" ++
  specHeaderLines req.headers ++
  "Content-Length: " ++ toString req.content_length ++ "\r\n" ++
  (match req.basic_auth with
   | some (u, p) => "Authorization: Basic " ++ base64Encode (u ++ ":" ++ p) ++ "\r\n"
   | none => "") ++
  (if req.expect_continue then "Expect: 100-continue\r\n" else "") ++
  "Connection: keep-alive\r\n" ++ "\r\n"

/-! ## Response head parsing (the `nom` combinators) -/

/-- Model of `nom::bytes::complete::is_not(": ")`: one or more characters that
are neither `:` nor a space; fails on zero characters. -/
def isNotColonSpace (l : List Char) : Option (List Char × List Char) :=
  let taken := l.takeWhile (fun c => !(c == ':' || c == ' '))
  if taken.isEmpty then none else some (l.drop taken.length, taken)

/-- Model of `nom::bytes::complete::tag(t)`. -/
def tagTok (t : List Char) (l : List Char) : Option (List Char × List Char) :=
  if l.take t.length = t then some (l.drop t.length, t) else none

/-- Model of `nom::bytes::complete::take_till(p)`: zero or more characters
until the predicate holds; never fails. -/
def takeTill (p : Char → Bool) (l : List Char) : Option (List Char × List Char) :=
  let taken := l.takeWhile (fun c => ¬ p c)
  some (l.drop taken.length, taken)

/-- Model of `parse_one_line_header`:
`(is_not(": "), tag(": "), take_till(\r or \n), tag("\r\n"))`. -/
def parseOneLineHeader (l : List Char) :
    Option (List Char × (List Char × List Char × List Char × List Char)) :=
  match isNotColonSpace l with
  | none => none
  | some (r1, key) =>
      match tagTok [':', ' '] r1 with
      | none => none
      | some (r2, cs) =>
          match takeTill (fun c => c = '\r' || c = '\n') r2 with
          | none => none
          | some (r3, value) =>
              match tagTok ['\r', '\n'] r3 with
              | none => none
              | some (r4, crlf) => some (r4, (key, cs, value, crlf))

/-- Model of `parse_resp_first_line`:
`(tag("HTTP/"), take_till(space), tag(" "), take_till(space or \r), take_till(\n))`. -/
def parseRespFirstLine (l : List Char) :
    Option (List Char × (List Char × List Char × List Char × List Char × List Char)) :=
  match tagTok "HTTP/".toList l with
  | none => none
  | some (r1, t1) =>
      match takeTill (fun c => c = ' ') r1 with
      | none => none
      | some (r2, version) =>
          match tagTok [' '] r2 with
          | none => none
          | some (r3, t2) =>
              match takeTill (fun c => c = ' ' || c = '\r') r3 with
              | none => none
              | some (r4, status) =>
                  match takeTill (fun c => c = '\n') r4 with
                  | none => none
                  | some (r5, rest) => some (r5, (t1, version, t2, status, rest))

/-- The header-line loop of `parse_headers`: parse one line, collect
the `(key, value)` pair, stop when the rest is exactly `\r\n`.  Fuel
bounds the loop; `parseHeaders` supplies enough since every
iteration consumes at least one character. -/
def parseHeadersAux : Nat → List Char → List (List Char × List Char) →
    Option (List (List Char × List Char))
  | 0, _, _ => none
  | fuel + 1, rest, acc =>
      match parseOneLineHeader rest with
      | none => none
      | some (out, (k, _, v, _)) =>
          let acc := acc ++ [(k, v)]
          if out = ['\r', '\n'] then some acc
          else parseHeadersAux fuel out acc

/-- Model of `parse_headers`. -/
def parseHeaders (l : List Char) : Option (List (List Char × List Char)) :=
  parseHeadersAux (l.length + 1) l []

/-- Model of `char::to_ascii_lowercase`: shift `A`–`Z` by 32, leave the rest. -/
def asciiLowerChar (c : Char) : Char :=
  if 'A' ≤ c ∧ c ≤ 'Z' then Char.ofNat (c.toNat + 32) else c

/-- Model of `str::to_ascii_lowercase` over the string's characters. -/
def asciiLowerStr (s : String) : String :=
  String.mk (s.data.map asciiLowerChar)

/-- The lowercasing map of `read_headers_to_resp`:
`(key.to_ascii_lowercase(), value)`. -/
def lowercasePairs (l : List (String × String)) : List (String × String) :=
  l.map (fun kv => (asciiLowerStr kv.1, kv.2))

/-! ## Auxiliary definitions for the claims -/

/-- The values stored under a key, in parse order. -/
def valuesOf (l : List (String × String)) (k : String) : List String :=
  (l.filter (fun kv => kv.1 = k)).map Prod.snd

/-- The phrase "parses as an unsigned integer", read as the spec's words say it:
a non-empty all-digit token.  Claim-side definition, to be compared
with the source's `rustParseU16`. -/
def specParsesAsUnsignedInteger (s : String) : Bool :=
  !s.toList.isEmpty && s.toList.all Char.isDigit

/-- A fully-consumed plain-transport response to address 0 holding
stream `sid`, as handed to `return_stream_to_pool`. -/
def mkConsumedResp (sid : Nat) : Response :=
  { addr := 0, is_tls := false, body_readed := true,
    http_version := HttpVersion.V1_1, status_code := 200, headers := [],
    body_stream := some sid }

/-- Release `n` consumed responses (with distinct streams) to address 0
of the plain pool, starting from an empty pool. -/
def releaseManyTcp : Nat → PoolMap
  | 0 => []
  | n + 1 => (returnStreamToPool (mkConsumedResp n) (releaseManyTcp n) []).2.1

/-! # Theorems -/

/-! ## Pool lemmas -/

theorem poolGet_append (p q : PoolMap) (a : Nat) :
    poolGet (p ++ q) a =
      match poolGet p a with
      | some b => some b
      | none => poolGet q a := by
  induction p with
  | nil => simp [poolGet]
  | cons hd t ih =>
      obtain ⟨a', b'⟩ := hd
      by_cases h : a' = a <;> simp [poolGet, h, ih]

theorem poolGet_poolSet (p : PoolMap) (a : Nat) (b : List Nat) (c : Nat) :
    poolGet (poolSet p a b) c =
      if c = a then (poolGet p a).map (fun _ => b) else poolGet p c := by
  induction p with
  | nil => simp [poolGet, poolSet]
  | cons hd t ih =>
      obtain ⟨k, v⟩ := hd
      by_cases hka : k = a
      · by_cases hca : c = a
        · simp [poolGet, poolSet, hka, hca]
        · have hkc : ¬ (k = c) := by
            intro h; exact hca (by rw [← h, hka])
          have hac : ¬ (a = c) := fun h => hca h.symm
          simp [poolGet, poolSet, hka, hca, hkc, hac]
      · by_cases hkc : k = c
        · have hca : ¬ (c = a) := by
            intro h; exact hka (by rw [hkc, h])
          simp [poolGet, poolSet, hka, hkc, hca]
        · simp [poolGet, poolSet, hka, hkc, ih]

theorem bucketSize_le_of_poolGet {p : PoolMap} {a : Nat} {b : List Nat}
    (h : poolGet p a = some b) : bucketSize p a = b.length := by
  simp [bucketSize, h]

theorem bucketSize_after_push (p : PoolMap) (addr : Nat) (bucket : List Nat)
    (sid a : Nat) (hb : poolGet p addr = some bucket) (hlen : bucket.length ≤ 30) :
    bucketSize (poolSet p addr (bucket ++ [sid])) a ≤ max (bucketSize p a) 31 := by
  by_cases h : a = addr
  · subst h
    have : bucketSize (poolSet p a (bucket ++ [sid])) a = bucket.length + 1 := by
      simp [bucketSize, poolGet_poolSet, hb]
    rw [this]
    exact le_max_of_le_right (by omega)
  · have : bucketSize (poolSet p addr (bucket ++ [sid])) a = bucketSize p a := by
      simp [bucketSize, poolGet_poolSet, h]
    rw [this]
    exact le_max_left _ _

theorem bucketSize_after_insert (p : PoolMap) (addr : Nat) (newb : List Nat) (a : Nat) :
    bucketSize (poolInsert p addr newb) a ≤ max (bucketSize p a) newb.length := by
  rw [bucketSize, poolInsert, poolGet_append]
  cases h : poolGet p a with
  | some b =>
      have : bucketSize p a = b.length := by simp [bucketSize, h]
      simp [this]
  | none =>
      by_cases ha : addr = a <;> simp [poolGet, ha]

theorem releaseManyTcp_eq (n : Nat) :
    releaseManyTcp n = if n = 0 then [] else [(0, List.range (min n 31))] := by
  induction n with
  | zero => rfl
  | succ m ih =>
      by_cases hm : m = 0
      · subst hm; rfl
      · rw [releaseManyTcp, ih]
        simp only [hm, if_false]
        by_cases h30 : m ≤ 30
        · have hmin : min m 31 = m := by omega
          have hmin2 : min (m + 1) 31 = m + 1 := by omega
          simp [returnStreamToPool, mkConsumedResp, poolGet, poolSet, hmin, hmin2,
            List.length_range, h30, ← List.range_succ]
        · have hmin : min m 31 = 31 := by omega
          have hmin2 : min (m + 1) 31 = 31 := by omega
          simp [returnStreamToPool, mkConsumedResp, poolGet, poolSet, hmin, hmin2,
            List.length_range, h30]

/-- C2 amended: the pool-size guard is `len <= 30` before the push, so a
bucket can reach 31 streams, not 30: releasing `n` consumed streams to
one fresh destination leaves its bucket at size `min n 31` (so exactly
31 once more than 31 are released), and a single release never grows
any bucket beyond `max` of its current size and 31; excess streams are
dropped, not queued. -/
theorem C2_amended_bucket_capacity_31 :
    (∀ n, bucketSize (releaseManyTcp n) 0 = min n 31) ∧
    (∀ r tcp tls a,
      bucketSize ((returnStreamToPool r tcp tls).2.1) a ≤ max (bucketSize tcp a) 31 ∧
      bucketSize ((returnStreamToPool r tcp tls).2.2) a ≤ max (bucketSize tls a) 31) := by
  constructor
  · intro n
    rw [releaseManyTcp_eq]
    by_cases hn : n = 0
    · simp [hn, bucketSize, poolGet]
    · simp [hn, bucketSize, poolGet, List.length_range]
  · intro r tcp tls a
    rw [returnStreamToPool]
    split
    · exact ⟨le_max_left _ _, le_max_left _ _⟩
    · split
      · exact ⟨le_max_left _ _, le_max_left _ _⟩
      · rename_i sid _
        split
        · split
          · rename_i bucket hb
            split
            · rename_i hlen
              exact ⟨le_max_left _ _, bucketSize_after_push tls r.addr bucket sid a hb hlen⟩
            · exact ⟨le_max_left _ _, le_max_left _ _⟩
          · exact ⟨le_max_left _ _,
              le_trans (bucketSize_after_insert tls r.addr [sid] a) (by simp; omega)⟩
        · split
          · rename_i bucket hb
            split
            · rename_i hlen
              exact ⟨bucketSize_after_push tcp r.addr bucket sid a hb hlen, le_max_left _ _⟩
            · exact ⟨le_max_left _ _, le_max_left _ _⟩
          · exact ⟨le_trans (bucketSize_after_insert tcp r.addr [sid] a) (by simp; omega),
              le_max_left _ _⟩

/-- C10: `put_expect_continue` ignores its boolean argument and always
sets the `expect_continue` flag to true; in particular
`put_expect_continue(false)` still enables the 100-continue handshake. -/
theorem C10_put_expect_continue_ignores_argument :
    ∀ (r : Request) (b : Bool),
      putExpectContinue r b = putExpectContinue r true ∧
      (putExpectContinue r b).expect_continue = true :=
  fun _ _ => ⟨rfl, rfl⟩

/-- C3 (code evaluated at the failing input): with a two-address
resolver result `[10, 20]`, `resolve_1st_ip` returns the **last**
entry `20` (`Vec::pop`), not the first entry `10` the claim names;
the empty-list case does fail with the resolution error. -/
theorem C3_resolve_takes_last_not_first :
    resolve1stIp [10, 20] = Except.ok 20 ∧ (20 : Nat) ≠ 10 ∧
    resolve1stIp [] = Except.error "no result in DNS resolve" := by
  refine ⟨rfl, by decide, rfl⟩

/-- C8 (code evaluated at the failing input): on the plain scheme with
an empty pool, a failed `TcpStream::connect` is `unwrap`ped — the
acquisition panics instead of returning an error result.  The same
happens when the pooled stream fails its liveness probe. -/
theorem C8_connect_failure_panics :
    pickOrConnectHttp none (fun _ => false) (Except.error "connection refused") =
      (AcquireOutcome.panicked, none) ∧
    pickOrConnectHttp (some [5]) (fun _ => false) (Except.error "connection refused") =
      (AcquireOutcome.panicked, some []) := by
  exact ⟨rfl, rfl⟩

/-- C1 (code evaluated at the failing input): a response parsed with
`content-length: 0` is already marked consumed by the constructor, so
the **first** `body_string` call returns the "response body has been
read" error — not the empty-string success the claim states — while
leaving the stream untouched. -/
theorem C1_zero_length_first_read_errors :
    newFromParseResult "1.1" "200" [("content-length", "0")] 7 false 0 =
      Except.ok
        { addr := 0, is_tls := false, body_readed := true,
          http_version := HttpVersion.V1_1, status_code := 200,
          headers := [("content-length", ["0"])], body_stream := some 7 } ∧
    bodyString asciiDecode
        { addr := 0, is_tls := false, body_readed := true,
          http_version := HttpVersion.V1_1, status_code := 200,
          headers := [("content-length", ["0"])], body_stream := some 7 }
        [1, 2, 3] =
      ({ addr := 0, is_tls := false, body_readed := true,
         http_version := HttpVersion.V1_1, status_code := 200,
         headers := [("content-length", ["0"])], body_stream := some 7 },
       [1, 2, 3], Except.error "response body has been read") := by
  exact ⟨rfl, rfl⟩

/-- C2 counterexample: releasing 32 consumed streams to one
destination leaves the bucket at size 31, not the 30 the claim
states (the guard is `len <= 30`, then push). -/
theorem C2_counterexample_bucket_reaches_31 :
    bucketSize (releaseManyTcp 32) 0 = 31 ∧ (31 : Nat) ≠ 30 := by
  exact ⟨rfl, by decide⟩

/-- C4 amended: the disposal decision is keyed on the consumed *flag*,
not on full consumption of the declared length: a response never read
(`body_readed` false) keeps its stream out of the pool, but any
completed `body_string` read attempt — including one that got fewer
than the declared bytes before the stream ended — sets the flag, and a
flagged response's stream is handed to the pool (when the bucket has
room). -/
theorem C4_amended_pool_return_keyed_on_flag :
    (∀ r tcp tls, r.body_readed = false → returnStreamToPool r tcp tls = (r, tcp, tls)) ∧
    (∀ (decode : List Nat → Except String String) (r : Response) (s : List Nat) (len : Nat),
      r.body_readed = false → contentLength r = some len → len ≠ 0 →
      r.body_stream.isSome = true →
      ((bodyString decode r s).1).body_readed = true) ∧
    (∀ r tcp tls sid, r.body_readed = true → r.body_stream = some sid →
      r.is_tls = false → bucketSize tcp r.addr ≤ 30 →
      sid ∈ ((poolGet ((returnStreamToPool r tcp tls).2.1) r.addr).getD [])) := by
  refine ⟨?_, ?_, ?_⟩
  · intro r tcp tls h
    simp [returnStreamToPool, h]
  · intro decode r s len h hcl hlen hbs
    obtain ⟨sid, hs⟩ := Option.isSome_iff_exists.mp hbs
    simp [bodyString, h, hcl, hlen, hs]
  · intro r tcp tls sid h hbs htls hcap
    cases hget : poolGet tcp r.addr with
    | some bucket =>
        have hlenb : bucket.length ≤ 30 := by
          have := bucketSize_le_of_poolGet hget
          omega
        simp [returnStreamToPool, h, hbs, htls, hget, hlenb, poolGet_poolSet]
    | none =>
        simp [returnStreamToPool, h, hbs, htls, hget, poolInsert, poolGet_append, poolGet]

/-- Witness for the C4 amended theorem at concrete inputs: an unread
response keeps its stream out of the pools; a truncated read on a
`content-length: 5` response sets the flag; a flagged response's
stream 7 lands in its destination's bucket. -/
theorem C4_amended_pool_return_keyed_on_flag_witness :
    returnStreamToPool
        { addr := 0, is_tls := false, body_readed := false,
          http_version := HttpVersion.V1_1, status_code := 200, headers := [],
          body_stream := some 3 } [] [] =
      ({ addr := 0, is_tls := false, body_readed := false,
         http_version := HttpVersion.V1_1, status_code := 200, headers := [],
         body_stream := some 3 }, [], []) ∧
    ((bodyString asciiDecode
        { addr := 0, is_tls := false, body_readed := false,
          http_version := HttpVersion.V1_1, status_code := 200,
          headers := [("content-length", ["5"])], body_stream := some 7 }
        [104]).1).body_readed = true ∧
    7 ∈ ((poolGet ((returnStreamToPool
        { addr := 0, is_tls := false, body_readed := true,
          http_version := HttpVersion.V1_1, status_code := 200, headers := [],
          body_stream := some 7 } [] []).2.1) 0).getD []) :=
  ⟨C4_amended_pool_return_keyed_on_flag.1 _ [] [] rfl,
   C4_amended_pool_return_keyed_on_flag.2.1 asciiDecode _ [104] 5 rfl (by decide)
     (by decide) rfl,
   C4_amended_pool_return_keyed_on_flag.2.2 _ [] [] 7 rfl rfl rfl (by decide)⟩

/-- C4 counterexample: a response declaring `content-length: 5` whose
stream ends after 3 bytes: `body_string` returns the truncated text,
sets the consumed flag anyway, and disposal then hands the
half-drained stream to the pool — the claim says it must never be
pooled. -/
theorem C4_counterexample_truncated_stream_pooled :
    newFromParseResult "1.1" "200" [("content-length", "5")] 7 false 0 =
      Except.ok
        { addr := 0, is_tls := false, body_readed := false,
          http_version := HttpVersion.V1_1, status_code := 200,
          headers := [("content-length", ["5"])], body_stream := some 7 } ∧
    bodyString asciiDecode
        { addr := 0, is_tls := false, body_readed := false,
          http_version := HttpVersion.V1_1, status_code := 200,
          headers := [("content-length", ["5"])], body_stream := some 7 }
        [104, 101, 108] =
      ({ addr := 0, is_tls := false, body_readed := true,
         http_version := HttpVersion.V1_1, status_code := 200,
         headers := [("content-length", ["5"])], body_stream := some 7 },
       [], Except.ok "hel") ∧
    "hel".length = 3 ∧ (3 : Nat) < 5 ∧
    (returnStreamToPool
        { addr := 0, is_tls := false, body_readed := true,
          http_version := HttpVersion.V1_1, status_code := 200,
          headers := [("content-length", ["5"])], body_stream := some 7 }
        [] []).2.1 = [(0, [7])] := by
  refine ⟨rfl, ?_, rfl, by decide, rfl⟩
  rfl

/-- C7 counterexample: the token `"70000"` is a non-empty all-digit
token — it parses as an unsigned integer in the claim's words — yet
construction fails with the invalid-status-code error, because the
code parses into `u16` and `70000 ≥ 2^16` overflows. -/
theorem C7_counterexample_u16_overflow :
    specParsesAsUnsignedInteger "70000" = true ∧
    newFromParseResult "1.1" "70000" [] 7 false 0 =
      Except.error (ZjhttpcError.InvalidHttpResponseStatusCode "70000") := by
  exact ⟨by decide, rfl⟩

/-- Every successfully constructed response holds its stream, carries
the accumulated header map, and is pre-marked consumed when the
declared content length is zero. -/
theorem newFromParseResult_ok_shape (ver st : String) (hv : List (String × String))
    (sid : Nat) (tls : Bool) (a : Nat) (r : Response)
    (h : newFromParseResult ver st hv sid tls a = Except.ok r) :
    r.body_stream = some sid ∧ r.headers = buildHeaders hv ∧
    (contentLength r = some 0 → r.body_readed = true) := by
  unfold newFromParseResult at h
  split at h
  · exact absurd h (by simp)
  · split at h
    · exact absurd h (by simp)
    · simp only [Except.ok.injEq] at h
      split at h
      · rename_i hcl0
        subst h
        exact ⟨rfl, rfl, fun _ => rfl⟩
      · rename_i hcl0
        subst h
        exact ⟨rfl, rfl, fun hc => absurd hc hcl0⟩

/-- C9: for every response produced by the parser, a second
`body_string` call fails, whatever decoders are used and however the
first call ended (already-consumed error, missing content length,
successful, or truncated read). -/
theorem C9_second_body_string_always_fails :
    ∀ (ver st : String) (hv : List (String × String)) (sid : Nat) (tls : Bool)
      (a : Nat) (r : Response) (d1 d2 : List Nat → Except String String) (s : List Nat),
      newFromParseResult ver st hv sid tls a = Except.ok r →
      ((bodyString d2 (bodyString d1 r s).1 (bodyString d1 r s).2.1).2.2).isOk = false := by
  intro ver st hv sid tls a r d1 d2 s h
  obtain ⟨hbs, hhd, himp⟩ := newFromParseResult_ok_shape ver st hv sid tls a r h
  by_cases hr : r.body_readed = true
  · simp [bodyString, hr, Except.isOk, Except.toBool]
  · have hr2 : r.body_readed = false := by
      cases hb : r.body_readed
      · rfl
      · exact absurd hb hr
    cases hcl : contentLength r with
    | none => simp [bodyString, hr2, hcl, Except.isOk, Except.toBool]
    | some len =>
        cases len with
        | zero =>
            have := himp hcl
            rw [hr2] at this
            exact absurd this (by simp)
        | succ m =>
            simp [bodyString, hr2, hcl, hbs, Except.isOk, Except.toBool]

/-- Witness for C9 at a concrete parsed response (`content-length: 5`,
three available bytes): the second `body_string` call fails. -/
theorem C9_second_body_string_always_fails_witness :
    ((bodyString asciiDecode
        (bodyString asciiDecode
          { addr := 0, is_tls := false, body_readed := false,
            http_version := HttpVersion.V1_1, status_code := 200,
            headers := [("content-length", ["5"])], body_stream := some 7 }
          [104, 101, 108]).1
        (bodyString asciiDecode
          { addr := 0, is_tls := false, body_readed := false,
            http_version := HttpVersion.V1_1, status_code := 200,
            headers := [("content-length", ["5"])], body_stream := some 7 }
          [104, 101, 108]).2.1).2.2).isOk = false :=
  C9_second_body_string_always_fails "1.1" "200" [("content-length", "5")] 7 false 0
    _ asciiDecode asciiDecode [104, 101, 108] rfl

/-- The header loop writes exactly the spec's header lines when every
stored value list is non-empty. -/
theorem writeHeaderLines_eq (hs : HeaderMap) (st : WireState)
    (h : ∀ kv ∈ hs, kv.2 ≠ []) :
    writeHeaderLines hs st = some { st with pending := st.pending ++ specHeaderLines hs } := by
  induction hs generalizing st with
  | nil => simp [writeHeaderLines, specHeaderLines, String.append_empty]
  | cons kv rest ih =>
      obtain ⟨k, vs⟩ := kv
      have hvs : vs ≠ [] := h (k, vs) (by simp)
      obtain ⟨v, t, rfl⟩ := List.exists_cons_of_ne_nil hvs
      simp only [writeHeaderLines, writeAll, List.head?]
      rw [ih _ (fun kv hkv => h kv (by simp [hkv]))]
      simp [specHeaderLines, String.append_assoc]

/-- C5: starting from an empty wire buffer, `send_header` flushes
exactly the spec-shaped request head — request line with optional
query, one line per header key with its first value, unconditional
`Content-Length`, optional `Authorization: Basic`, optional
`Expect: 100-continue`, `Connection: keep-alive`, blank line — and
leaves nothing unflushed.  (The hypothesis excludes header keys whose
stored value list is empty, on which the source `unwrap` panics.) -/
theorem C5_send_header_matches_spec :
    ∀ (req : Request) (avail : String),
      (∀ kv ∈ req.headers, kv.2 ≠ []) →
      ∃ res, sendHeader req ⟨"", ""⟩ avail =
        some ({ sent := specRequestHead req, pending := "" }, res) := by
  intro req avail h
  refine ⟨(if req.expect_continue then checkContinue avail else Except.ok ()), ?_⟩
  obtain ⟨m, p, q, hs, ec, ba, cl, bd⟩ := req
  simp only at h
  cases q with
  | none =>
      cases ba with
      | none =>
          simp only [sendHeader, writeAll]
          rw [writeHeaderLines_eq _ _ h]
          cases ec <;>
            simp [flushWire, specRequestHead, String.append_assoc, String.empty_append,
              String.append_empty]
      | some up =>
          obtain ⟨u, pw⟩ := up
          simp only [sendHeader, writeAll]
          rw [writeHeaderLines_eq _ _ h]
          cases ec <;>
            simp [flushWire, specRequestHead, String.append_assoc, String.empty_append,
              String.append_empty]
  | some qs =>
      cases ba with
      | none =>
          simp only [sendHeader, writeAll]
          rw [writeHeaderLines_eq _ _ h]
          cases ec <;>
            simp [flushWire, specRequestHead, String.append_assoc, String.empty_append,
              String.append_empty]
      | some up =>
          obtain ⟨u, pw⟩ := up
          simp only [sendHeader, writeAll]
          rw [writeHeaderLines_eq _ _ h]
          cases ec <;>
            simp [flushWire, specRequestHead, String.append_assoc, String.empty_append,
              String.append_empty]

/-- Witness for C5 at the spec's example scenario:
`GET http://host/search?q=test` with no body. -/
theorem C5_send_header_matches_spec_witness :
    ∃ res, sendHeader
        { method := "GET", path := "/search", query := some "q=test",
          headers := [("host", ["host"]), ("user-agent", ["ua"])],
          expect_continue := false, basic_auth := none, content_length := 0,
          body := Body.None } ⟨"", ""⟩ "" =
      some ({ sent := specRequestHead
                { method := "GET", path := "/search", query := some "q=test",
                  headers := [("host", ["host"]), ("user-agent", ["ua"])],
                  expect_continue := false, basic_auth := none, content_length := 0,
                  body := Body.None },
              pending := "" }, res) :=
  C5_send_header_matches_spec _ "" (by decide)

/-- The result component of a completed `send_header` is exactly the
100-continue check when the flag is set, and success otherwise. -/
theorem sendHeader_result_eq (req : Request) (st0 : WireState) (avail : String)
    (st : WireState) (res : Except String Unit)
    (h : sendHeader req st0 avail = some (st, res)) :
    res = if req.expect_continue then checkContinue avail else Except.ok () := by
  simp only [sendHeader] at h
  split at h
  · exact absurd h (by simp)
  · simp only [Option.some.injEq, Prod.mk.injEq] at h
    exact h.2.symm

/-- C6: when expect-continue is requested, `send_header` reads once
after the flush and: zero available bytes is a failure, any read bytes
other than the exact literal `HTTP/1.1 100 Continue\r\n\r\n` are a
failure, and the exact literal succeeds. -/
theorem C6_expect_continue_exact_match :
    ∀ (req : Request) (st0 : WireState) (avail : String) (st : WireState)
      (res : Except String Unit),
      req.expect_continue = true →
      sendHeader req st0 avail = some (st, res) →
      ((avail.data.take 1024 = [] → res.isOk = false) ∧
       (String.mk (avail.data.take 1024) ≠ "HTTP/1.1 100 Continue\r\n\r\n" →
         res.isOk = false) ∧
       (String.mk (avail.data.take 1024) = "HTTP/1.1 100 Continue\r\n\r\n" →
         res = Except.ok ())) := by
  intro req st0 avail st res hec hsh
  have hres := sendHeader_result_eq req st0 avail st res hsh
  rw [hec, if_pos rfl] at hres
  subst hres
  refine ⟨?_, ?_, ?_⟩
  · intro h0
    simp only [checkContinue, h0]
    decide
  · intro hne
    simp only [checkContinue]
    by_cases h0 : (List.take 1024 avail.data).length = 0
    · rw [if_pos h0]
      rfl
    · rw [if_neg h0, if_pos hne]
      rfl
  · intro heq
    have hd : List.take 1024 avail.data = ("HTTP/1.1 100 Continue\r\n\r\n").data :=
      congrArg String.data heq
    simp only [checkContinue]
    rw [hd]
    rfl

/-- Witness for C6: a bare expect-continue `PUT /` request against a
peer that answers the exact literal; the handshake succeeds. -/
theorem C6_expect_continue_exact_match_witness :
    ("HTTP/1.1 100 Continue\r\n\r\n".data.take 1024 = [] →
      (Except.ok () : Except String Unit).isOk = false) ∧
    (String.mk ("HTTP/1.1 100 Continue\r\n\r\n".data.take 1024) ≠
        "HTTP/1.1 100 Continue\r\n\r\n" →
      (Except.ok () : Except String Unit).isOk = false) ∧
    (String.mk ("HTTP/1.1 100 Continue\r\n\r\n".data.take 1024) =
        "HTTP/1.1 100 Continue\r\n\r\n" →
      (Except.ok () : Except String Unit) = Except.ok ()) :=
  C6_expect_continue_exact_match
    { method := "PUT", path := "/", query := none, headers := [],
      expect_continue := true, basic_auth := none, content_length := 0,
      body := Body.None }
    ⟨"", ""⟩ "HTTP/1.1 100 Continue\r\n\r\n"
    { sent := "PUT / HTTP/1.1\r\nContent-Length: 0\r\nExpect: 100-continue\r\nConnection: keep-alive\r\n\r\n",
      pending := "" }
    (Except.ok ()) rfl rfl

/-! ## Header-map accumulation lemmas -/

theorem hmGet_hmPush (m : HeaderMap) (k v : String) (q : String) :
    hmGet (hmPush m k v) q =
      if q = k then some ((hmGet m k).getD [] ++ [v]) else hmGet m q := by
  induction m with
  | nil =>
      by_cases h : q = k
      · simp [hmPush, hmGet, h]
      · have h2 : ¬ (k = q) := fun hc => h hc.symm
        simp [hmPush, hmGet, h, h2]
  | cons hd t ih =>
      obtain ⟨k2, vs⟩ := hd
      by_cases hk2 : k2 = k
      · by_cases hq : q = k
        · simp [hmPush, hmGet, hk2, hq]
        · have hne : ¬ (k2 = q) := fun hc => hq (by rw [← hc, hk2])
          have hne2 : ¬ (k = q) := fun hc => hq hc.symm
          simp [hmPush, hmGet, hk2, hq, hne, hne2]
      · by_cases hk2q : k2 = q
        · have hq : ¬ (q = k) := fun hc => hk2 (by rw [hk2q, hc])
          simp [hmPush, hmGet, hk2, hk2q, hq]
        · simp [hmPush, hmGet, hk2, hk2q, ih]

theorem hmGet_foldl_hmPush (l : List (String × String)) (m : HeaderMap) (q : String) :
    hmGet (l.foldl (fun m kv => hmPush m kv.1 kv.2) m) q =
      if valuesOf l q = [] then hmGet m q
      else some ((hmGet m q).getD [] ++ valuesOf l q) := by
  induction l generalizing m with
  | nil => simp [valuesOf]
  | cons kv t ih =>
      obtain ⟨k, v⟩ := kv
      simp only [List.foldl_cons]
      rw [ih]
      by_cases hq : k = q
      · subst hq
        have hvo : valuesOf ((k, v) :: t) k = v :: valuesOf t k := by
          simp [valuesOf]
        rw [hvo]
        have hget : hmGet (hmPush m k v) k = some ((hmGet m k).getD [] ++ [v]) := by
          rw [hmGet_hmPush]
          simp
        by_cases ht : valuesOf t k = []
        · simp [ht, hget]
        · simp [ht, hget, List.append_assoc]
      · have hvo : valuesOf ((k, v) :: t) q = valuesOf t q := by
          simp [valuesOf, hq]
        rw [hvo]
        have hqk : ¬ (q = k) := fun h => hq h.symm
        have hget : hmGet (hmPush m k v) q = hmGet m q := by
          rw [hmGet_hmPush]
          simp [hqk]
        by_cases ht : valuesOf t q = []
        · simp [ht, hget]
        · simp [ht, hget]

/-- C7 support: under an empty initial map, lookup returns exactly the
accumulated values of a key, in parse order. -/
theorem hmGet_buildHeaders (l : List (String × String)) (q : String) :
    hmGet (buildHeaders l) q =
      if valuesOf l q = [] then none else some (valuesOf l q) := by
  rw [buildHeaders, hmGet_foldl_hmPush]
  by_cases h : valuesOf l q = [] <;> simp [h, hmGet]

theorem key_mem_hmPush {m : HeaderMap} {k v : String} {x : String}
    (h : x ∈ (hmPush m k v).map Prod.fst) : x = k ∨ x ∈ m.map Prod.fst := by
  induction m with
  | nil =>
      simp [hmPush] at h
      exact Or.inl h
  | cons hd t ih =>
      obtain ⟨k2, vs⟩ := hd
      by_cases h2 : k2 = k
      · simp [hmPush, h2] at h
        rcases h with h | h
        · exact Or.inl h
        · exact Or.inr (by simp [h])
      · simp [hmPush, h2] at h
        rcases h with h | h
        · exact Or.inr (by simp [h])
        · rcases ih (by simpa using h) with h3 | h3
          · exact Or.inl h3
          · exact Or.inr (by simp [h3])

theorem key_mem_foldl_hmPush {l : List (String × String)} {m : HeaderMap}
    {kv : String × List String}
    (h : kv ∈ l.foldl (fun m kv => hmPush m kv.1 kv.2) m) :
    kv.1 ∈ m.map Prod.fst ∨ ∃ kv2 ∈ l, kv.1 = kv2.1 := by
  induction l generalizing m with
  | nil =>
      exact Or.inl (List.mem_map_of_mem Prod.fst h)
  | cons p t ih =>
      rcases ih (by simpa using h) with h2 | h2
      · rcases key_mem_hmPush h2 with h3 | h3
        · exact Or.inr ⟨p, by simp, h3⟩
        · exact Or.inl h3
      · obtain ⟨kv2, hm, he⟩ := h2
        exact Or.inr ⟨kv2, by simp [hm], he⟩

/-- C7 support: every key of the built header map is the lowercased
form of some parsed key. -/
theorem buildHeaders_keys_lowercased (l : List (String × String))
    (kv : String × List String) (h : kv ∈ buildHeaders (lowercasePairs l)) :
    ∃ kv2 ∈ l, kv.1 = asciiLowerStr kv2.1 := by
  rcases key_mem_foldl_hmPush h with h2 | h2
  · simp at h2
  · obtain ⟨kv2, hm, he⟩ := h2
    rw [lowercasePairs] at hm
    obtain ⟨kv3, hm3, he3⟩ := List.mem_map.mp hm
    exact ⟨kv3, hm3, by rw [he, ← he3]⟩

/-! ## Parser lemmas -/

theorem takeWhile_append_cons {p : Char → Bool} (k : List Char) (x : Char) (t : List Char)
    (hk : ∀ c ∈ k, p c = true) (hx : p x = false) :
    (k ++ x :: t).takeWhile p = k := by
  induction k with
  | nil => simp [List.takeWhile, hx]
  | cons c k2 ih =>
      have hc := hk c (by simp)
      simp only [List.cons_append, List.takeWhile]
      rw [hc]
      simp [ih (fun c h => hk c (by simp [h]))]

/-- C7 support: a header line whose colon is not followed by a space
fails to parse (given a well-formed non-empty key). -/
theorem parseOneLineHeader_missing_space (k v : List Char)
    (hk : k ≠ []) (hchars : ∀ c ∈ k, c ≠ ':' ∧ c ≠ ' ')
    (hv : v.head? ≠ some ' ') :
    parseOneLineHeader (k ++ ':' :: v) = none := by
  have hp : ∀ c ∈ k, (!(c == ':' || c == ' ')) = true := by
    intro c hc
    have h1 := (hchars c hc).1
    have h2 := (hchars c hc).2
    simp [h1, h2]
  have hx : (!((':' : Char) == ':' || (':' : Char) == ' ')) = false := by decide
  have htake := takeWhile_append_cons k ':' v hp hx
  have hdrop : (k ++ ':' :: v).drop k.length = ':' :: v := List.drop_left k (':' :: v)
  simp only [parseOneLineHeader, isNotColonSpace, htake]
  rw [if_neg (by simpa using hk)]
  rw [hdrop]
  have htag : tagTok [':', ' '] (':' :: v) = none := by
    rw [tagTok]
    cases v with
    | nil => simp
    | cons c t2 =>
        have hc : ¬ (c = ' ') := by
          intro hc
          exact hv (by simp [hc])
        simp [hc]
  simp [htag]

/-- C7 amended: version validation, status validation against Rust's
`u16` parse (not an arbitrary unsigned integer: the token must fit in
16 bits, with an optional leading `+`), colon-space requirement for
header lines, lowercased keys, and accumulation of repeated keys in
parse order. -/
theorem C7_amended_head_validation :
    (∀ (ver st : String) (hv : List (String × String)) (sid : Nat) (tls : Bool) (a : Nat),
      newFromParseResult ver st hv sid tls a =
          Except.error (ZjhttpcError.InvalidHttpResponseVersion ver) ↔
        (ver ≠ "1.1" ∧ ver ≠ "1.0")) ∧
    (∀ (ver st : String) (hv : List (String × String)) (sid : Nat) (tls : Bool) (a : Nat),
      (ver = "1.1" ∨ ver = "1.0") →
      (newFromParseResult ver st hv sid tls a =
          Except.error (ZjhttpcError.InvalidHttpResponseStatusCode st) ↔
        rustParseU16 st = none)) ∧
    (∀ k v : List Char, k ≠ [] → (∀ c ∈ k, c ≠ ':' ∧ c ≠ ' ') → v.head? ≠ some ' ' →
      parseOneLineHeader (k ++ ':' :: v) = none) ∧
    (∀ (l : List (String × String)) (kv : String × List String),
      kv ∈ buildHeaders (lowercasePairs l) → ∃ kv2 ∈ l, kv.1 = asciiLowerStr kv2.1) ∧
    (∀ (l : List (String × String)) (q : String),
      hmGet (buildHeaders l) q =
        if valuesOf l q = [] then none else some (valuesOf l q)) := by
  refine ⟨?_, ?_, parseOneLineHeader_missing_space, buildHeaders_keys_lowercased,
    hmGet_buildHeaders⟩
  · intro ver st hv sid tls a
    by_cases h1 : ver = "1.1"
    · subst h1
      constructor
      · intro h
        cases hst : rustParseU16 st <;> simp [newFromParseResult, hst] at h
      · intro ⟨hc, _⟩
        exact absurd rfl hc
    · by_cases h2 : ver = "1.0"
      · subst h2
        constructor
        · intro h
          cases hst : rustParseU16 st <;> simp [newFromParseResult, hst] at h
        · intro ⟨_, hc⟩
          exact absurd rfl hc
      · constructor
        · intro _
          exact ⟨h1, h2⟩
        · intro _
          simp [newFromParseResult, h1, h2]
  · intro ver st hv sid tls a hver
    have case1 : ∀ u : String, u = "1.1" ∨ u = "1.0" →
        (newFromParseResult u st hv sid tls a =
            Except.error (ZjhttpcError.InvalidHttpResponseStatusCode st) ↔
          rustParseU16 st = none) := by
      intro u hu
      constructor
      · intro h
        cases hst : rustParseU16 st with
        | none => rfl
        | some c =>
            rcases hu with hu | hu <;> subst hu <;>
              simp [newFromParseResult, hst] at h
      · intro h
        rcases hu with hu | hu <;> subst hu <;> simp [newFromParseResult, h]
    exact case1 ver hver

/-- Witness for the C7 amended theorem: the non-numeric token `"abc"`
yields the invalid-status-code error; the space-less line
`Key:value\r\n` fails to parse; the parsed key `Host` appears
lowercased in the built map. -/
theorem C7_amended_head_validation_witness :
    (newFromParseResult "1.1" "abc" [] 7 false 0 =
        Except.error (ZjhttpcError.InvalidHttpResponseStatusCode "abc") ↔
      rustParseU16 "abc" = none) ∧
    parseOneLineHeader ("Key".toList ++ ':' :: "value".toList) = none ∧
    (∃ kv2 ∈ [("Host", "example.com")],
      (("host", ["example.com"]) : String × List String).1 = asciiLowerStr kv2.1) :=
  ⟨C7_amended_head_validation.2.1 "1.1" "abc" [] 7 false 0 (Or.inl rfl),
   C7_amended_head_validation.2.2.1 "Key".toList "value".toList (by decide) (by decide)
     (by decide),
   C7_amended_head_validation.2.2.2.1 [("Host", "example.com")] ("host", ["example.com"])
     (by decide)⟩

end Zjhttpc
